import Mathlib

/-!
Shallow embedding of the harness generator in
`llvm/tools/llvm-klee/llvm-klee.cpp` (the `main` function and its
command-line options), together with theorems settling the specified
properties of its three stages: parameter binding resolution,
representation selection, and harness emission.

The embedding mirrors the source line by line:

* `LLVMType` models the static types the code inspects through
  `isPointerTy()`, `isIntegerTy()` and `getIntegerBitWidth()`.
* `Instruction` models an entry-block instruction as the code classifies
  it: `dyn_cast<CallInst>` either succeeds (any call, regardless of the
  callee) or fails.
* `scanLoop` models the `for (auto &I : *BB)` loop (lines 188-224),
  including the `idx >= arg_size` break, the
  `cast<MetadataAsValue>(CI->getOperand(1))` chain (whose failure is an
  assertion abort, modelled as `GenError.castFailure`), the per-parameter
  emission, and `args.push_back`.
* `callArgsText` models the final argument-printing loop (lines 226-235)
  with the unsigned `arg_size - 1` arithmetic done modulo 2^32.
* `processModule` models the per-module body: `setTargetTriple`, the
  unchecked `M->getFunction(FunctionName)` result, and generation.
-/

deriving instance DecidableEq for Except

namespace LlvmKlee

/-- Static type of a formal parameter, as far as the tool inspects it:
the code only calls `isPointerTy()`, `isIntegerTy()` and
`getIntegerBitWidth()` on it.  A pointer records its pointee type (which
the code never reads); the remaining constructors stand for the
non-pointer, non-integer types mentioned by the specification. -/
inductive LLVMType where
  | pointer (pointee : LLVMType) : LLVMType
  | integer (bitWidth : Nat) : LLVMType
  | floatTy : LLVMType
  | vectorTy : LLVMType
  | structTy : LLVMType
  | funcTy : LLVMType
  deriving DecidableEq, Repr

/-- Model of `Type::isPointerTy()`. -/
def LLVMType.isPointerTy : LLVMType → Bool
  | .pointer _ => true
  | _ => false

/-- Model of `Type::isIntegerTy()`. -/
def LLVMType.isIntegerTy : LLVMType → Bool
  | .integer _ => true
  | _ => false

/-- Model of `Type::getIntegerBitWidth()`.  The code only calls it after
a positive `isIntegerTy()` test, so the default on other constructors is
never reached. -/
def LLVMType.getIntegerBitWidth : LLVMType → Nat
  | .integer w => w
  | _ => 0

/-- Metadata node, as far as the cast chain distinguishes it: either a
`DILocalVariable` carrying a source name, or some other node (on which
`cast<DILocalVariable>` fails). -/
inductive Metadata where
  | localVariable (name : String) : Metadata
  | otherNode : Metadata
  deriving DecidableEq, Repr

/-- An operand of a call instruction: either an ordinary SSA value (on
which `cast<MetadataAsValue>` fails) or a metadata-as-value wrapper. -/
inductive Operand where
  | value : Operand
  | metadataVal (md : Metadata) : Operand
  deriving DecidableEq, Repr

/-- An entry-block instruction, as far as `dyn_cast<CallInst>`
classifies it: a call (with its callee name and operand list) or any
other instruction. -/
inductive Instruction where
  | call (callee : String) (operands : List Operand) : Instruction
  | other : Instruction
  deriving DecidableEq, Repr

/-- Model of a successful `dyn_cast<CallInst>`. -/
def isCallInst : Instruction → Bool
  | .call _ _ => true
  | .other => false

/-- Result of the cast chain
`cast<DILocalVariable>(cast<MDNode>(cast<MetadataAsValue>(CI->getOperand(1))->getMetadata()))->getName()`
applied to a call's operand list (lines 192-196): `some name` when
operand 1 exists, is a metadata-as-value, and its node is a
`DILocalVariable`; `none` when any cast in the chain fails (an assertion
abort in the original). -/
def dbgOperandName (ops : List Operand) : Option String :=
  match ops.get? 1 with
  | some (.metadataVal (.localVariable name)) => some name
  | _ => none

/-- The cast chain applied to an instruction: defined only on calls. -/
def dbgVarName : Instruction → Option String
  | .call _ ops => dbgOperandName ops
  | .other => none

/-- Qualification predicate as the specification words it (section 4.1):
an instruction qualifies as a debug-declaration record if it is a call
to the well-known debug-declare/debug-value intrinsic.  Kept separate
from the code-derived `isCallInst` so the two can be compared. -/
def specQualifies : Instruction → Bool
  | .call callee _ => callee == "llvm.dbg.declare" || callee == "llvm.dbg.value"
  | .other => false

/-- The target function as the code reads it: `F->args()` (with static
types), `F->getEntryBlock()`, and the name used for `getFunction`
lookup. -/
structure Function where
  name : String
  params : List LLVMType
  entryBlock : List Instruction
  deriving DecidableEq, Repr

/-- A loaded module: its target triple and its functions. -/
structure Module where
  targetTriple : String
  functions : List Function
  deriving DecidableEq, Repr

/-- Model of `Module::getFunction(StringRef)`: lookup by name, or null. -/
def getFunction (M : Module) (fname : String) : Option Function :=
  M.functions.find? (fun F => F.name == fname)

/-- Failure modes of the generator body.  `castFailure` models the
assertion abort of a failed `cast<>` in the metadata chain;
`nullFunctionDeref` models the undefined behaviour of calling
`F->arg_size()` on the unchecked null result of `getFunction` — neither
produces a diagnostic naming the tool. -/
inductive GenError where
  | castFailure : GenError
  | nullFunctionDeref : GenError
  deriving DecidableEq, Repr

/-- Model of `size_t size = 0; if (arg.getType()->isIntegerTy()) size =
arg.getType()->getIntegerBitWidth();` (lines 210-213). -/
def intSizeOf (ty : LLVMType) : Nat :=
  if ty.isIntegerTy then ty.getIntegerBitWidth else 0

/-- The two output lines the loop body emits for the parameter bound at
the current index (lines 201-218): a declaration and a
`klee_make_symbolic` call, chosen by `isPointerTy()`. -/
def emitParam (arraySize : Int) (ty : LLVMType) (name : String) : List String :=
  if ty.isPointerTy then
    ["  char " ++ name ++ "[" ++ toString arraySize ++ "];",
     "  klee_make_symbolic(" ++ name ++ ", sizeof(" ++ name ++ "), \"" ++ name ++ "\");"]
  else
    ["  i" ++ toString (intSizeOf ty) ++ " " ++ name ++ ";",
     "  klee_make_symbolic(&" ++ name ++ ", sizeof(" ++ name ++ "), \"" ++ name ++ "\");"]

/-- The inner `for (auto &arg : F->args()) if (idx == i) ...` loop
(lines 199-221): it selects the `idx`-th formal parameter and emits its
two lines; when `idx` is out of range no iteration matches and nothing
is emitted. -/
def emitFor (arraySize : Int) (params : List LLVMType) (idx : Nat) (name : String) :
    List String :=
  match params.get? idx with
  | some ty => emitParam arraySize ty name
  | none => []

/-- Model of the entry-block scan loop (lines 188-224).  Per
instruction, in program order: break when `idx >= arg_size`; on a call
(`dyn_cast<CallInst>` succeeds, whatever the callee) run the metadata
cast chain — abort on failure, otherwise push the recovered name, emit
the lines for the parameter at the current binding index, and increment
the index; skip any non-call instruction.  The result pairs, per
binding, the emitted lines with the pushed argument name. -/
def scanLoop (arraySize : Int) (params : List LLVMType) (argSize : Nat) :
    Nat → List Instruction → Except GenError (List (List String × String))
  | _, [] => .ok []
  | idx, I :: rest =>
    if argSize ≤ idx then .ok []
    else
      match I with
      | .call _ ops =>
        match dbgOperandName ops with
        | some name =>
          (scanLoop arraySize params argSize (idx + 1) rest).map
            (fun r => (emitFor arraySize params idx name, name) :: r)
        | none => .error .castFailure
      | .other => scanLoop arraySize params argSize idx rest

/-- `unsigned arg_size = F->arg_size();` — `arg_size()` returns a
`size_t`, truncated into a 32-bit `unsigned`. -/
def argSizeOf (F : Function) : Nat :=
  F.params.length % 2 ^ 32

/-- The scan as `main` runs it: from binding index 0 over the whole
entry block. -/
def runScan (arraySize : Int) (F : Function) :
    Except GenError (List (List String × String)) :=
  scanLoop arraySize F.params (argSizeOf F) 0 F.entryBlock

/-- Unsigned 32-bit `n - 1`, as computed by `i < arg_size - 1` (line
230): wraps to `2^32 - 1` when `n = 0`. -/
def cppUSub1 (n : Nat) : Nat :=
  (n + (2 ^ 32 - 1)) % 2 ^ 32

/-- Model of the argument-printing loop (lines 228-235): each argument
name is followed by a literal comma while `i < arg_size - 1` (unsigned),
otherwise by the terminator `);`.  Note that when fewer arguments than
`arg_size` were collected, the terminator branch is never reached. -/
def callArgsText (argSize : Nat) : Nat → List String → String
  | _, [] => ""
  | i, a :: rest =>
    (a ++ (if i < cppUSub1 argSize then ", " else ");")) ++ callArgsText argSize (i + 1) rest

/-- The per-function output the claims are about: per bound parameter
the emitted (lines, argument-name) pair, and the final call-expression
text as printed. -/
structure Harness where
  emissions : List (List String × String)
  callText : String
  deriving DecidableEq, Repr

/-- The generation body for one function: run the scan, then print
`"  " << FunctionName << "("` followed by the argument loop (lines
186-235). -/
def generateHarness (arraySize : Int) (fname : String) (F : Function) :
    Except GenError Harness :=
  match runScan arraySize F with
  | .error e => .error e
  | .ok res =>
    .ok ⟨res, "  " ++ fname ++ "(" ++ callArgsText (argSizeOf F) 0 (res.map Prod.snd)⟩

/-- The `-t` option: `cl::opt<std::string> TargetTriple` with
`cl::init("x86_64-pc-linux-gnu")` (lines 52-54). -/
def effectiveTargetTriple : Option String → String
  | none => "x86_64-pc-linux-gnu"
  | some t => t

/-- The `-s` option: `cl::opt<std::int32_t> ArraySize` with
`cl::init(1024)` (lines 49-50). -/
def effectiveArraySize : Option Int → Int
  | none => 1024
  | some s => s

/-- The module state after `M->setTargetTriple(TargetTriple)` (line
166): the triple is overwritten with the option value, everything else
is untouched. -/
def processedModuleState (tripleOpt : Option String) (M : Module) : Module :=
  { M with targetTriple := effectiveTargetTriple tripleOpt }

/-- The per-module body of `main` (lines 160-244): overwrite the target
triple, look the function up by name — the code performs no null check,
so a failed lookup reaches `F->arg_size()` on a null pointer
(`GenError.nullFunctionDeref`) — and otherwise generate the harness. -/
def processModule (arraySize : Int) (tripleOpt : Option String) (fname : String)
    (M : Module) : Except GenError (Module × Harness) :=
  let M2 := processedModuleState tripleOpt M
  match getFunction M2 fname with
  | none => .error .nullFunctionDeref
  | some F => (generateHarness arraySize fname F).map (fun h => (M2, h))

/-- The `#define iW intW_t` lines of the emitted preamble (lines
178-182). -/
def preambleDefines : List (String × String) :=
  [("i8", "int8_t"), ("i16", "int16_t"), ("i32", "int32_t"),
   ("i64", "int64_t"), ("i128", "int128_t")]

/-- Expansion of a type alias through the preamble's `#define` lines. -/
def aliasTarget (a : String) : Option String :=
  (preambleDefines.find? (fun p => p.1 == a)).map Prod.snd

/-- Byte width of the sized integer types named by the preamble's
defines.  This encodes the claim's granted assumption that `int8_t` ..
`int128_t` are sized integer types occupying bit-width / 8 bytes. -/
def sizedIntByteWidth : String → Option Nat
  | "int8_t" => some 1
  | "int16_t" => some 2
  | "int32_t" => some 4
  | "int64_t" => some 8
  | "int128_t" => some 16
  | _ => none

/-- A well-formed rendering of a call's argument list, following the
specification's wording (section 4.3, step 4): arguments separated by a
literal comma, the last followed by the statement terminator — and a
zero-argument call closed immediately.  Used to compare the emitted
`callArgsText` against the specified shape. -/
def wellFormedArgList : List String → String
  | [] => ");"
  | [a] => a ++ ");"
  | a :: b :: rest => a ++ ", " ++ wellFormedArgList (b :: rest)

/-- A debug-declare record naming `n`, shaped as the real intrinsic call
is: operand 0 the address value, operand 1 the variable metadata. -/
def dbgRecord (n : String) : Instruction :=
  .call "llvm.dbg.declare" [.value, .metadataVal (.localVariable n)]

/-- Reference description of the scan result on a block whose qualifying
records carry the names `names` in program order: the binding at index
`idx` takes the next name and the emission for the `idx`-th parameter,
stopping at `argSize` bindings. -/
def bindSpec (arraySize : Int) (params : List LLVMType) (argSize : Nat) :
    Nat → List String → List (List String × String)
  | _, [] => []
  | idx, n :: rest =>
    if argSize ≤ idx then []
    else (emitFor arraySize params idx n, n) :: bindSpec arraySize params argSize (idx + 1) rest

/-- One emission per (parameter, name) pair, in formal-parameter order:
the shape the scan takes when the bindings exactly cover the
parameters. -/
def zipEmissions (arraySize : Int) (params : List LLVMType) (names : List String) :
    List (List String × String) :=
  (params.zip names).map (fun p => (emitParam arraySize p.1 p.2, p.2))

/-- Scenario A function: `int add(int a, int b)` with two
debug-declare records naming `a` and `b`. -/
def exampleAdd : Function :=
  ⟨"add", [.integer 32, .integer 32], [dbgRecord "a", dbgRecord "b"]⟩

/-- Scenario B function: `void fill(char *buf)` with one debug-declare
record naming `buf`. -/
def exampleFill : Function :=
  ⟨"fill", [.pointer (.integer 8)], [dbgRecord "buf"]⟩

/-- A module whose only function is a zero-parameter `g`, used to probe
the lookup of a name it does not define. -/
def exampleModule : Module :=
  ⟨"armv7-none-eabi", [⟨"g", [], []⟩]⟩

lemma scanLoop_break (s : Int) (params : List LLVMType) (argSize idx : Nat)
    (h : argSize ≤ idx) (l : List Instruction) :
    scanLoop s params argSize idx l = .ok [] := by
  cases l with
  | nil => rfl
  | cons I rest =>
    simp only [scanLoop]
    rw [if_pos h]

lemma scanLoop_eq_bindSpec (s : Int) (params : List LLVMType) (argSize : Nat) :
    ∀ (instrs : List Instruction) (idx : Nat) (names : List String),
      (instrs.filter isCallInst).map dbgVarName = names.map some →
      scanLoop s params argSize idx instrs = .ok (bindSpec s params argSize idx names) := by
  intro instrs
  induction instrs with
  | nil =>
    intro idx names h
    have hnames : names = [] := by
      cases names with
      | nil => rfl
      | cons n ns => simp at h
    subst hnames
    rfl
  | cons I rest ih =>
    intro idx names h
    by_cases hb : argSize ≤ idx
    · rw [scanLoop_break s params argSize idx hb]
      cases names with
      | nil => rfl
      | cons n ns =>
        simp only [bindSpec]
        rw [if_pos hb]
    · cases I with
      | other =>
        have hrest : (rest.filter isCallInst).map dbgVarName = names.map some := by
          simpa [List.filter_cons, isCallInst] using h
        simp only [scanLoop]
        rw [if_neg hb]
        exact ih idx names hrest
      | call cle ops =>
        have hcons :
            dbgVarName (.call cle ops) :: (rest.filter isCallInst).map dbgVarName =
              names.map some := by
          simpa [List.filter_cons, isCallInst] using h
        cases names with
        | nil => simp at hcons
        | cons n ns =>
          simp only [List.map_cons, List.cons.injEq] at hcons
          obtain ⟨h1, h2⟩ := hcons
          have hop : dbgOperandName ops = some n := by simpa [dbgVarName] using h1
          simp only [scanLoop]
          rw [if_neg hb, hop]
          simp only []
          rw [ih (idx + 1) ns h2]
          simp only [bindSpec]
          rw [if_neg hb]
          rfl

lemma scanLoop_append_stable (s : Int) (params : List LLVMType) (argSize : Nat) :
    ∀ (instrs : List Instruction) (idx : Nat) (names : List String)
      (extra : List Instruction),
      (instrs.filter isCallInst).map dbgVarName = names.map some →
      argSize ≤ idx + names.length →
      scanLoop s params argSize idx (instrs ++ extra) = scanLoop s params argSize idx instrs := by
  intro instrs
  induction instrs with
  | nil =>
    intro idx names extra h hle
    have hnames : names = [] := by
      cases names with
      | nil => rfl
      | cons n ns => simp at h
    subst hnames
    simp only [List.length_nil, Nat.add_zero] at hle
    rw [List.nil_append, scanLoop_break s params argSize idx hle,
      scanLoop_break s params argSize idx hle]
  | cons I rest ih =>
    intro idx names extra h hle
    by_cases hb : argSize ≤ idx
    · rw [scanLoop_break s params argSize idx hb (I :: rest ++ extra),
        scanLoop_break s params argSize idx hb (I :: rest)]
    · cases I with
      | other =>
        have hrest : (rest.filter isCallInst).map dbgVarName = names.map some := by
          simpa [List.filter_cons, isCallInst] using h
        simp only [List.cons_append, scanLoop]
        rw [if_neg hb, if_neg hb]
        exact ih idx names extra hrest hle
      | call cle ops =>
        have hcons :
            dbgVarName (.call cle ops) :: (rest.filter isCallInst).map dbgVarName =
              names.map some := by
          simpa [List.filter_cons, isCallInst] using h
        cases names with
        | nil => simp at hcons
        | cons n ns =>
          simp only [List.map_cons, List.cons.injEq] at hcons
          obtain ⟨h1, h2⟩ := hcons
          have hop : dbgOperandName ops = some n := by simpa [dbgVarName] using h1
          have hle2 : argSize ≤ (idx + 1) + ns.length := by
            simp only [List.length_cons] at hle
            omega
          simp only [List.cons_append, scanLoop, hop, if_neg hb]
          exact congrArg (Except.map (fun r => (emitFor s params idx n, n) :: r))
            (ih (idx + 1) ns extra h2 hle2)

lemma bindSpec_map_snd (s : Int) (params : List LLVMType) (argSize : Nat) :
    ∀ (names : List String) (idx : Nat),
      (bindSpec s params argSize idx names).map Prod.snd = names.take (argSize - idx) := by
  intro names
  induction names with
  | nil => intro idx; simp [bindSpec]
  | cons n ns ih =>
    intro idx
    by_cases hb : argSize ≤ idx
    · have hz : argSize - idx = 0 := Nat.sub_eq_zero_of_le hb
      simp only [bindSpec]
      rw [if_pos hb, hz]
      rfl
    · have hsucc : argSize - idx = (argSize - (idx + 1)) + 1 := by omega
      simp only [bindSpec]
      rw [if_neg hb, hsucc, List.take_succ_cons, List.map_cons, ih (idx + 1)]

lemma bindSpec_eq_zipEmissions (s : Int) (params : List LLVMType) :
    ∀ (names : List String) (idx : Nat),
      idx + names.length = params.length →
      bindSpec s params params.length idx names =
        ((params.drop idx).zip names).map (fun p => (emitParam s p.1 p.2, p.2)) := by
  intro names
  induction names with
  | nil => intro idx h; simp [bindSpec]
  | cons n ns ih =>
    intro idx h
    have hlt : idx < params.length := by
      simp only [List.length_cons] at h
      omega
    have hb : ¬ params.length ≤ idx := by omega
    have hdrop : params.drop idx = params.get ⟨idx, hlt⟩ :: params.drop (idx + 1) := by
      rw [List.drop_eq_getElem_cons hlt]
      rfl
    have hemit : emitFor s params idx n = emitParam s (params.get ⟨idx, hlt⟩) n := by
      unfold emitFor
      rw [List.get?_eq_get hlt]
    simp only [bindSpec]
    rw [if_neg hb, hdrop]
    simp only [List.zip_cons_cons, List.map_cons]
    rw [hemit, ih (idx + 1) (by simp only [List.length_cons] at h; omega)]

lemma callArgsText_cons (argSize i : Nat) (a : String) (rest : List String) :
    callArgsText argSize i (a :: rest) =
      (a ++ (if i < cppUSub1 argSize then ", " else ");")) ++ callArgsText argSize (i + 1) rest :=
  rfl

lemma cppUSub1_of_pos (n : Nat) (h1 : 1 ≤ n) (h2 : n < 2 ^ 32) : cppUSub1 n = n - 1 := by
  unfold cppUSub1
  have hsplit : n + (2 ^ 32 - 1) = (n - 1) + 1 * 2 ^ 32 := by omega
  rw [hsplit, Nat.add_mul_mod_self_right]
  exact Nat.mod_eq_of_lt (by omega)

lemma callArgsText_eq_wellFormed (argSize : Nat) (hlt : argSize < 2 ^ 32) :
    ∀ (names : List String) (i : Nat), names ≠ [] → i + names.length = argSize →
      callArgsText argSize i names = wellFormedArgList names := by
  intro names
  induction names with
  | nil => intro i h _; exact absurd rfl h
  | cons a rest ih =>
    intro i _ hlen
    cases rest with
    | nil =>
      have h1 : 1 ≤ argSize := by simp only [List.length_cons, List.length_nil] at hlen; omega
      have hc : cppUSub1 argSize = argSize - 1 := cppUSub1_of_pos argSize h1 hlt
      have hni : ¬ i < cppUSub1 argSize := by
        simp only [List.length_cons, List.length_nil] at hlen
        omega
      rw [callArgsText_cons, if_neg hni]
      rw [show callArgsText argSize (i + 1) [] = "" from rfl, String.append_empty]
      rfl
    | cons b rest2 =>
      have h1 : 1 ≤ argSize := by simp only [List.length_cons] at hlen; omega
      have hc : cppUSub1 argSize = argSize - 1 := cppUSub1_of_pos argSize h1 hlt
      have hi : i < cppUSub1 argSize := by
        simp only [List.length_cons] at hlen
        omega
      rw [callArgsText_cons, if_pos hi]
      rw [ih (i + 1) (by simp) (by simp only [List.length_cons] at hlen ⊢; omega)]
      rfl

lemma zipEmissions_map_snd (s : Int) (params : List LLVMType) (names : List String)
    (h : names.length ≤ params.length) :
    (zipEmissions s params names).map Prod.snd = names := by
  unfold zipEmissions
  rw [List.map_map]
  exact List.map_snd_zip params names h

lemma zipEmissions_length (s : Int) (params : List LLVMType) (names : List String) :
    (zipEmissions s params names).length = min params.length names.length := by
  unfold zipEmissions
  rw [List.length_map]
  exact List.length_zip params names

lemma generateHarness_eq_ok (s : Int) (fname : String) (F : Function)
    (res : List (List String × String)) (h : runScan s F = .ok res) :
    generateHarness s fname F =
      .ok ⟨res, "  " ++ fname ++ "(" ++ callArgsText (argSizeOf F) 0 (res.map Prod.snd)⟩ := by
  unfold generateHarness
  rw [h]

lemma generateHarness_of_exact (s : Int) (fname : String) (F : Function)
    (names : List String)
    (hvalid : (F.entryBlock.filter isCallInst).map dbgVarName = names.map some)
    (hcount : names.length = F.params.length)
    (hpos : 1 ≤ F.params.length)
    (hlt : F.params.length < 2 ^ 32) :
    generateHarness s fname F =
      .ok ⟨zipEmissions s F.params names, "  " ++ fname ++ "(" ++ wellFormedArgList names⟩ := by
  have hargSize : argSizeOf F = F.params.length := Nat.mod_eq_of_lt hlt
  have hscan : runScan s F = .ok (bindSpec s F.params (argSizeOf F) 0 names) :=
    scanLoop_eq_bindSpec s F.params (argSizeOf F) F.entryBlock 0 names hvalid
  have hbind : bindSpec s F.params (argSizeOf F) 0 names = zipEmissions s F.params names := by
    rw [hargSize, bindSpec_eq_zipEmissions s F.params names 0 (by omega), List.drop_zero]
    rfl
  have hsnd : (zipEmissions s F.params names).map Prod.snd = names :=
    zipEmissions_map_snd s F.params names (le_of_eq hcount)
  have hnonempty : names ≠ [] := by
    intro hcontra
    rw [hcontra] at hcount
    simp at hcount
    omega
  rw [generateHarness_eq_ok s fname F _ hscan, hbind, hsnd, hargSize,
    callArgsText_eq_wellFormed F.params.length hlt names 0 hnonempty (by omega)]

lemma generateHarness_single (s : Int) (fname cle name : String) (ty : LLVMType) :
    generateHarness s fname
        ⟨fname, [ty], [.call cle [.value, .metadataVal (.localVariable name)]]⟩ =
      .ok ⟨[(emitParam s ty name, name)], "  " ++ fname ++ "(" ++ name ++ ");"⟩ := by
  have hone : (1 : Nat) % 2 ^ 32 = 1 := Nat.mod_eq_of_lt (by norm_num)
  have hscan :
      runScan s ⟨fname, [ty], [.call cle [.value, .metadataVal (.localVariable name)]]⟩ =
        .ok [(emitParam s ty name, name)] := by
    unfold runScan argSizeOf
    simp only [List.length_cons, List.length_nil, Nat.zero_add, hone]
    simp only [scanLoop, dbgOperandName, emitFor, List.get?]
    rfl
  have hargs :
      argSizeOf ⟨fname, [ty], [.call cle [.value, .metadataVal (.localVariable name)]]⟩ = 1 := by
    unfold argSizeOf
    simp [hone]
  rw [generateHarness_eq_ok s fname _ _ hscan]
  simp only [List.map_cons, List.map_nil, hargs]
  rw [callArgsText_cons, if_neg (by decide : ¬ (0 : Nat) < cppUSub1 1)]
  rw [show callArgsText 1 (0 + 1) [] = "" from rfl, String.append_empty]
  simp only [String.append_assoc]

/-- Claim C1, counterexample to the zero-parameter boundary case: for a
function with zero formal parameters (and, as the claim's hypothesis
requires, zero qualifying records) the generator emits the call text
`"  f("` — the argument loop never runs, so the statement terminator
`);` demanded by the claim is never printed and the call expression is
not well-formed. -/
theorem C1_zero_param_call_malformed :
    generateHarness 1024 "f" ⟨"f", [], []⟩ = .ok ⟨[], "  f("⟩ ∧
    "  f(" ≠ "  " ++ "f" ++ "(" ++ wellFormedArgList [] := by
  exact ⟨by decide, by decide⟩

/-- Claim C1 (amended to functions with at least one formal parameter):
when the entry block holds exactly as many qualifying records —
instructions surviving `dyn_cast<CallInst>`, each with valid
local-variable metadata carrying the names `names` — as the function has
formal parameters, the harness emits exactly one declaration group per
parameter, pairing the i-th recovered name with the i-th formal
parameter in order, and the call expression lists exactly those names,
comma-separated, the last followed by the terminator `);`.  For zero
parameters the emitted call expression is instead the unterminated
`"  f("` (see the counterexample). -/
theorem C1_exact_records_emission (s : Int) (fname : String) (F : Function)
    (names : List String)
    (hvalid : (F.entryBlock.filter isCallInst).map dbgVarName = names.map some)
    (hcount : names.length = F.params.length)
    (hpos : 1 ≤ F.params.length)
    (hlt : F.params.length < 2 ^ 32) :
    generateHarness s fname F =
      .ok ⟨zipEmissions s F.params names, "  " ++ fname ++ "(" ++ wellFormedArgList names⟩ ∧
    (zipEmissions s F.params names).length = F.params.length ∧
    (zipEmissions s F.params names).map Prod.snd = names := by
  refine ⟨generateHarness_of_exact s fname F names hvalid hcount hpos hlt, ?_, ?_⟩
  · rw [zipEmissions_length, hcount, Nat.min_self]
  · exact zipEmissions_map_snd s F.params names (le_of_eq hcount)

/-- Witness for C1_exact_records_emission at Scenario A
(`int add(int a, int b)` with records naming `a` and `b`). -/
theorem C1_exact_records_emission_witness :
    ((exampleAdd.entryBlock.filter isCallInst).map dbgVarName =
        (["a", "b"] : List String).map some ∧
      (["a", "b"] : List String).length = exampleAdd.params.length ∧
      1 ≤ exampleAdd.params.length ∧
      exampleAdd.params.length < 2 ^ 32) ∧
    (generateHarness 1024 "add" exampleAdd =
        .ok ⟨zipEmissions 1024 exampleAdd.params ["a", "b"],
          "  " ++ "add" ++ "(" ++ wellFormedArgList ["a", "b"]⟩ ∧
      (zipEmissions 1024 exampleAdd.params ["a", "b"]).length = exampleAdd.params.length ∧
      (zipEmissions 1024 exampleAdd.params ["a", "b"]).map Prod.snd = ["a", "b"]) :=
  ⟨⟨by decide, by decide, by decide, by decide⟩,
    C1_exact_records_emission 1024 "add" exampleAdd ["a", "b"]
      (by decide) (by decide) (by decide) (by decide)⟩

/-- Claim C2, counterexample: a call to an ordinary function is not a
debug-declare/debug-value intrinsic (`specQualifies` is false), yet it
is not skipped without effect: the scan runs the metadata cast chain on
it, aborting when operand 1 is an ordinary value (`memset`), and even
consuming a binding index with a recovered name when operand 1 happens
to be named-local-variable metadata (`memcpy`) — whereas skipping would
leave the scan result `.ok []`. -/
theorem C2_nonintrinsic_not_skipped :
    specQualifies (.call "memset" [.value, .value]) = false ∧
    scanLoop 1024 [.integer 32] 1 0 [.call "memset" [.value, .value]] =
      .error .castFailure ∧
    specQualifies (.call "memcpy" [.value, .metadataVal (.localVariable "x")]) = false ∧
    scanLoop 1024 [.integer 32] 1 0 [.call "memcpy" [.value, .metadataVal (.localVariable "x")]] =
      .ok [(["  i32 x;", "  klee_make_symbolic(&x, sizeof(x), \"x\");"], "x")] := by
  exact ⟨by decide, by decide, by decide, by decide⟩

/-- Claim C2 (amended): before the binding count reaches the parameter
count, an instruction consumes a binding index and contributes a
recovered name if and only if it is a call instruction — to any callee,
not only the debug intrinsic — whose operand 1 is metadata casting to a
named local variable; a call whose operand 1 is not such metadata is a
fatal cast failure, not a skip; non-call instructions are skipped
without effect.  Calls to the debug intrinsic are in particular call
instructions, so the specified records do qualify. -/
theorem C2_qualification_is_any_call (s : Int) (params : List LLVMType)
    (argSize idx : Nat) (instr : Instruction) (rest : List Instruction) (n : String)
    (hidx : idx < argSize) :
    (isCallInst instr = false →
      scanLoop s params argSize idx (instr :: rest) = scanLoop s params argSize idx rest) ∧
    (isCallInst instr = true → dbgVarName instr = some n →
      scanLoop s params argSize idx (instr :: rest) =
        (scanLoop s params argSize (idx + 1) rest).map
          (fun r => (emitFor s params idx n, n) :: r)) ∧
    (isCallInst instr = true → dbgVarName instr = none →
      scanLoop s params argSize idx (instr :: rest) = .error .castFailure) ∧
    (specQualifies instr = true → isCallInst instr = true) := by
  have hb : ¬ argSize ≤ idx := by omega
  cases instr with
  | other =>
    refine ⟨fun _ => ?_, fun hcall _ => ?_, fun hcall _ => ?_, fun hq => ?_⟩
    · simp only [scanLoop]
      rw [if_neg hb]
    · simp [isCallInst] at hcall
    · simp [isCallInst] at hcall
    · simp [specQualifies] at hq
  | call cle ops =>
    refine ⟨fun hcall => ?_, fun _ hn => ?_, fun _ hn => ?_, fun _ => rfl⟩
    · simp [isCallInst] at hcall
    · have hop : dbgOperandName ops = some n := by simpa [dbgVarName] using hn
      simp only [scanLoop, hop, if_neg hb]
    · have hop : dbgOperandName ops = none := by simpa [dbgVarName] using hn
      simp only [scanLoop, hop, if_neg hb]

/-- Witness for C2_qualification_is_any_call at a debug-declare record
naming `a`, first of one i32 parameter. -/
theorem C2_qualification_is_any_call_witness :
    (0 < 1) ∧
    ((isCallInst (dbgRecord "a") = false →
        scanLoop 1024 [.integer 32] 1 0 [dbgRecord "a"] = scanLoop 1024 [.integer 32] 1 0 []) ∧
      (isCallInst (dbgRecord "a") = true → dbgVarName (dbgRecord "a") = some "a" →
        scanLoop 1024 [.integer 32] 1 0 [dbgRecord "a"] =
          (scanLoop 1024 [.integer 32] 1 (0 + 1) []).map
            (fun r => (emitFor 1024 [.integer 32] 0 "a", "a") :: r)) ∧
      (isCallInst (dbgRecord "a") = true → dbgVarName (dbgRecord "a") = none →
        scanLoop 1024 [.integer 32] 1 0 [dbgRecord "a"] = .error .castFailure) ∧
      (specQualifies (dbgRecord "a") = true → isCallInst (dbgRecord "a") = true)) :=
  ⟨by decide,
    C2_qualification_is_any_call 1024 [.integer 32] 1 0 (dbgRecord "a") [] "a" (by decide)⟩

/-- Claim C3: on a binding undercount the generator does not reject.
With one i32 formal parameter and zero qualifying records it emits the
malformed call text `"  f("` (missing argument, no terminator), and with
two parameters and one record it emits `"  h(a, "` — the trailing comma
branch, never the terminator — in both cases succeeding instead of
failing fatally as the claim requires. -/
theorem C3_undercount_not_rejected :
    generateHarness 1024 "f" ⟨"f", [.integer 32], []⟩ = .ok ⟨[], "  f("⟩ ∧
    generateHarness 1024 "h" ⟨"h", [.integer 32, .integer 8], [dbgRecord "a"]⟩ =
      .ok ⟨[(["  i32 a;", "  klee_make_symbolic(&a, sizeof(a), \"a\");"], "a")], "  h(a, "⟩ := by
  exact ⟨by decide, by decide⟩

/-- Claim C4, counterexample: representation selection does not fail
fatally on an unrecognized integer width or a non-integer non-pointer
type — a 7-bit integer parameter yields a successful generation with the
fallback declaration `i7 x;`, and a floating-point parameter yields
`i0 y;`. -/
theorem C4_no_fatal_on_unsupported :
    generateHarness 1024 "f" ⟨"f", [.integer 7], [dbgRecord "x"]⟩ =
      .ok ⟨[(["  i7 x;", "  klee_make_symbolic(&x, sizeof(x), \"x\");"], "x")], "  f(x);"⟩ ∧
    generateHarness 1024 "g" ⟨"g", [.floatTy], [dbgRecord "y"]⟩ =
      .ok ⟨[(["  i0 y;", "  klee_make_symbolic(&y, sizeof(y), \"y\");"], "y")], "  g(y);"⟩ := by
  exact ⟨by decide, by decide⟩

/-- Claim C4 (amended): representation selection never fails.  For any
bound parameter whose static type is not a pointer, generation succeeds
and silently emits a declaration with the alias `i<W>`, `W` being the
type's integer bit width taken verbatim — whatever it is, recognized or
not — and `0` when the type is not an integer at all. -/
theorem C4_silent_fallback (s : Int) (fname cle name : String) (ty : LLVMType)
    (hnp : ty.isPointerTy = false) :
    generateHarness s fname
        ⟨fname, [ty], [.call cle [.value, .metadataVal (.localVariable name)]]⟩ =
      .ok ⟨[(emitParam s ty name, name)], "  " ++ fname ++ "(" ++ name ++ ");"⟩ ∧
    emitParam s ty name =
      ["  i" ++ toString (intSizeOf ty) ++ " " ++ name ++ ";",
       "  klee_make_symbolic(&" ++ name ++ ", sizeof(" ++ name ++ "), \"" ++ name ++ "\");"] ∧
    (ty.isIntegerTy = false → intSizeOf ty = 0) := by
  refine ⟨generateHarness_single s fname cle name ty, ?_, fun hni => ?_⟩
  · unfold emitParam
    rw [if_neg (by rw [hnp]; exact Bool.false_ne_true)]
  · unfold intSizeOf
    rw [hni]
    rfl

/-- Witness for C4_silent_fallback at a 7-bit integer parameter. -/
theorem C4_silent_fallback_witness :
    ((LLVMType.integer 7).isPointerTy = false) ∧
    (generateHarness 1024 "f"
        ⟨"f", [.integer 7], [.call "llvm.dbg.declare"
          [.value, .metadataVal (.localVariable "x")]]⟩ =
      .ok ⟨[(emitParam 1024 (.integer 7) "x", "x")], "  " ++ "f" ++ "(" ++ "x" ++ ");"⟩ ∧
    emitParam 1024 (.integer 7) "x" =
      ["  i" ++ toString (intSizeOf (.integer 7)) ++ " " ++ "x" ++ ";",
       "  klee_make_symbolic(&" ++ "x" ++ ", sizeof(" ++ "x" ++ "), \"" ++ "x" ++ "\");"] ∧
    ((LLVMType.integer 7).isIntegerTy = false → intSizeOf (.integer 7) = 0)) :=
  ⟨by decide, C4_silent_fallback 1024 "f" "llvm.dbg.declare" "x" (.integer 7) (by decide)⟩

/-- Claim C5: a bound pointer-typed parameter is declared as a `char`
buffer whose extent is exactly the configured array-size option (1024
when the option is not given) and is independent of the pointee's static
type, and the symbolization call passes the buffer name, `sizeof` of the
buffer as byte extent, and the recovered name as the label.  The last
conjunct is Scenario B end to end. -/
theorem C5_pointer_buffer_extent (opt : Option Int) (name : String) (p1 p2 : LLVMType) :
    emitParam (effectiveArraySize opt) (.pointer p1) name =
      ["  char " ++ name ++ "[" ++ toString (effectiveArraySize opt) ++ "];",
       "  klee_make_symbolic(" ++ name ++ ", sizeof(" ++ name ++ "), \"" ++ name ++ "\");"] ∧
    emitParam (effectiveArraySize opt) (.pointer p1) name =
      emitParam (effectiveArraySize opt) (.pointer p2) name ∧
    effectiveArraySize none = 1024 ∧
    generateHarness (effectiveArraySize none) "fill" exampleFill =
      .ok ⟨[(["  char buf[1024];", "  klee_make_symbolic(buf, sizeof(buf), \"buf\");"], "buf")],
        "  fill(buf);"⟩ := by
  refine ⟨rfl, rfl, rfl, by decide⟩

/-- Claim C6: a bound integer-typed parameter of recognized bit width
`W ∈ {8, 16, 32, 64, 128}` is declared with the sized-integer alias
`iW`, and the `sizeof` byte-extent of the symbolization call — resolved
through the preamble's `#define iW intW_t` alias and the granted byte
width of the sized integer types — evaluates to `W / 8`. -/
theorem C6_integer_alias_extent (s : Int) (name : String) (W : Nat)
    (hW : W = 8 ∨ W = 16 ∨ W = 32 ∨ W = 64 ∨ W = 128) :
    emitParam s (.integer W) name =
      ["  i" ++ toString W ++ " " ++ name ++ ";",
       "  klee_make_symbolic(&" ++ name ++ ", sizeof(" ++ name ++ "), \"" ++ name ++ "\");"] ∧
    (aliasTarget ("i" ++ toString W)).bind sizedIntByteWidth = some (W / 8) := by
  constructor
  · rfl
  · rcases hW with h | h | h | h | h <;> subst h <;> decide

/-- Witness for C6_integer_alias_extent at `W = 32`. -/
theorem C6_integer_alias_extent_witness :
    ((32 : Nat) = 8 ∨ (32 : Nat) = 16 ∨ (32 : Nat) = 32 ∨ (32 : Nat) = 64 ∨
      (32 : Nat) = 128) ∧
    (emitParam 1024 (.integer 32) "a" =
      ["  i" ++ toString (32 : Nat) ++ " " ++ "a" ++ ";",
       "  klee_make_symbolic(&" ++ "a" ++ ", sizeof(" ++ "a" ++ "), \"" ++ "a" ++ "\");"] ∧
    (aliasTarget ("i" ++ toString (32 : Nat))).bind sizedIntByteWidth =
      some ((32 : Nat) / 8)) :=
  ⟨by decide, C6_integer_alias_extent 1024 "a" 32 (by decide)⟩

/-- Claim C7: when the supplied function name resolves to no function in
the module, the code does not surface a diagnosed input error and does
not stop before reading the function — it calls `F->arg_size()` on the
null result of `getFunction` with no check, which the embedding records
as the undefined-behaviour outcome `nullFunctionDeref`, produced with no
diagnostic naming the tool. -/
theorem C7_unresolved_name_null_deref :
    getFunction (processedModuleState none exampleModule) "f" = none ∧
    processModule 1024 none "f" exampleModule = .error .nullFunctionDeref := by
  exact ⟨by decide, by decide⟩

/-- Claim C8: invariants of the binding scan, for an entry block whose
qualifying (call) instructions all carry valid local-variable metadata
naming `names` in program order.  The scan succeeds; the bound names are
exactly the first `P` recovered names in program order (so the binding
at list position `i` — the binding index — holds the i-th name: one
binding per index, indices strictly increasing); the number of bindings
is `min P (number of qualifying records)`; once `P` bindings are
collected any further entry-block instructions — qualifying or not, even
with malformed metadata — leave the result unchanged; and zero
qualifying instructions yield the empty binding list. -/
theorem C8_binding_scan_invariants (s : Int) (F : Function) (names : List String)
    (hvalid : (F.entryBlock.filter isCallInst).map dbgVarName = names.map some)
    (hlt : F.params.length < 2 ^ 32) :
    runScan s F = .ok (bindSpec s F.params (argSizeOf F) 0 names) ∧
    (bindSpec s F.params (argSizeOf F) 0 names).map Prod.snd =
      names.take F.params.length ∧
    (bindSpec s F.params (argSizeOf F) 0 names).length =
      min F.params.length names.length ∧
    (F.params.length ≤ names.length → ∀ extra : List Instruction,
      runScan s ⟨F.name, F.params, F.entryBlock ++ extra⟩ = runScan s F) ∧
    (names = [] → runScan s F = .ok []) := by
  have hargSize : argSizeOf F = F.params.length := Nat.mod_eq_of_lt hlt
  have hscan : runScan s F = .ok (bindSpec s F.params (argSizeOf F) 0 names) :=
    scanLoop_eq_bindSpec s F.params (argSizeOf F) F.entryBlock 0 names hvalid
  have hsnd : (bindSpec s F.params (argSizeOf F) 0 names).map Prod.snd =
      names.take F.params.length := by
    rw [bindSpec_map_snd, Nat.sub_zero, hargSize]
  refine ⟨hscan, hsnd, ?_, fun hge extra => ?_, fun hnil => ?_⟩
  · have := congrArg List.length hsnd
    rw [List.length_map, List.length_take] at this
    exact this
  · unfold runScan
    exact scanLoop_append_stable s F.params (argSizeOf F) F.entryBlock 0 names extra hvalid
      (by omega)
  · subst hnil
    rw [hscan]
    rfl

/-- Witness for C8_binding_scan_invariants at Scenario A. -/
theorem C8_binding_scan_invariants_witness :
    ((exampleAdd.entryBlock.filter isCallInst).map dbgVarName =
        (["a", "b"] : List String).map some ∧
      exampleAdd.params.length < 2 ^ 32) ∧
    (runScan 1024 exampleAdd =
        .ok (bindSpec 1024 exampleAdd.params (argSizeOf exampleAdd) 0 ["a", "b"]) ∧
      (bindSpec 1024 exampleAdd.params (argSizeOf exampleAdd) 0 ["a", "b"]).map Prod.snd =
        (["a", "b"] : List String).take exampleAdd.params.length ∧
      (bindSpec 1024 exampleAdd.params (argSizeOf exampleAdd) 0 ["a", "b"]).length =
        min exampleAdd.params.length (["a", "b"] : List String).length ∧
      (exampleAdd.params.length ≤ (["a", "b"] : List String).length →
        ∀ extra : List Instruction,
          runScan 1024 ⟨exampleAdd.name, exampleAdd.params, exampleAdd.entryBlock ++ extra⟩ =
            runScan 1024 exampleAdd) ∧
      ((["a", "b"] : List String) = [] → runScan 1024 exampleAdd = .ok [])) :=
  ⟨⟨by decide, by decide⟩,
    C8_binding_scan_invariants 1024 exampleAdd ["a", "b"] (by decide) (by decide)⟩

/-- Claim C9: the target triple of every processed module is overwritten
before harness generation with the option value — the option's default
string when none is supplied — regardless of the module's original
triple, and nothing else in the module is modified; the per-module body
then proceeds on exactly that overwritten state. -/
theorem C9_triple_overwritten (tripleOpt : Option String) (M : Module) (s : Int)
    (fname : String) :
    (processedModuleState tripleOpt M).targetTriple = effectiveTargetTriple tripleOpt ∧
    (processedModuleState tripleOpt M).functions = M.functions ∧
    effectiveTargetTriple none = "x86_64-pc-linux-gnu" ∧
    processModule s tripleOpt fname M =
      (match getFunction (processedModuleState tripleOpt M) fname with
       | none => .error .nullFunctionDeref
       | some F => (generateHarness s fname F).map
           (fun h => (processedModuleState tripleOpt M, h))) := by
  exact ⟨rfl, rfl, rfl, rfl⟩

/-- Claim C10: the array-size option is a signed 32-bit integer and is
never validated — for any zero or negative value within the 32-bit
range, generation succeeds with no error and the value is substituted
verbatim as the array extent of the pointer-typed parameter's
declaration, yielding a non-positive array bound. -/
theorem C10_arraysize_unvalidated (s : Int) (fname cle name : String) (pointee : LLVMType)
    (_hneg : s ≤ 0) (_hlo : -(2 ^ 31) ≤ s) :
    generateHarness s fname
        ⟨fname, [.pointer pointee], [.call cle [.value, .metadataVal (.localVariable name)]]⟩ =
      .ok ⟨[(["  char " ++ name ++ "[" ++ toString s ++ "];",
              "  klee_make_symbolic(" ++ name ++ ", sizeof(" ++ name ++ "), \"" ++ name ++ "\");"],
             name)],
        "  " ++ fname ++ "(" ++ name ++ ");"⟩ := by
  rw [generateHarness_single s fname cle name (.pointer pointee)]
  rfl

/-- Witness for C10_arraysize_unvalidated at the value `-5`. -/
theorem C10_arraysize_unvalidated_witness :
    ((-5 : Int) ≤ 0 ∧ -(2 ^ 31) ≤ (-5 : Int)) ∧
    generateHarness (-5) "fill"
        ⟨"fill", [.pointer (.integer 8)],
          [.call "llvm.dbg.declare" [.value, .metadataVal (.localVariable "buf")]]⟩ =
      .ok ⟨[(["  char " ++ "buf" ++ "[" ++ toString (-5 : Int) ++ "];",
              "  klee_make_symbolic(" ++ "buf" ++ ", sizeof(" ++ "buf" ++ "), \"" ++ "buf" ++ "\");"],
             "buf")],
        "  " ++ "fill" ++ "(" ++ "buf" ++ ");"⟩ :=
  ⟨⟨by decide, by decide⟩,
    C10_arraysize_unvalidated (-5) "fill" "llvm.dbg.declare" "buf" (.integer 8)
      (by decide) (by decide)⟩

end LlvmKlee
